import Mathlib

/-!
Verification of the RPC protocol core in
`src/packages/isolated-extension-api/src/api/rpc-protocol.ts`.

The development shallowly embeds the protocol:
* a closed JSON value type stands for the JSON-representable JS values that
  cross the wire (numbers are modelled as integers; the protocol's own
  messages only ever carry integral numbers);
* `JSON.stringify` / `JSON.parse` of the JS runtime are modelled by
  `stringifyChars` / `parseVal` on the whitespace-free JSON fragment that
  `MessageFactory` emits (the parser is fuel-indexed and lenient in places
  where `JSON.parse` is stricter, e.g. leading zeros; no protocol message
  exercises the difference);
* the stateful `RPCProtocolImpl` becomes explicit state passing over a
  `RPCState` record, with the strings handed to the multiplexer collected in
  the result.
-/

namespace RPC

/-- JSON value model: the closed value variant for JSON-representable data
(null, booleans, numbers, strings, arrays, string-keyed objects).  Object
fields are kept in insertion order, which is the order `JSON.stringify`
serializes them in. -/
inductive Json where
  | null
  | bool (b : Bool)
  | num (n : Int)
  | str (s : String)
  | arr (elems : List Json)
  | obj (fields : List (String × Json))

/-- The character `{` (written via its code point to keep JSON template
strings free of literal braces). -/
def lbrace : Char := Char.ofNat 123

/-- The character `}`. -/
def rbrace : Char := Char.ofNat 125

/-- Decimal digit character for a value below 10. -/
def decDigit (n : Nat) : Char := Char.ofNat (48 + n)

/-- Recognizer for the characters 0-9. -/
def isDigitChar (c : Char) : Bool := 48 ≤ c.toNat && c.toNat ≤ 57

/-- Fuel-indexed decimal rendering of a natural number (most significant
digit first); `fuel > n` suffices. -/
def natToCharsAux : Nat → Nat → List Char
  | 0, _ => []
  | fuel+1, n =>
    if n < 10 then [decDigit n]
    else natToCharsAux fuel (n / 10) ++ [decDigit (n % 10)]

/-- Decimal rendering of a natural number, as produced by JavaScript
`String(n)` for an integral number. -/
def natToChars (n : Nat) : List Char := natToCharsAux (n + 1) n

/-- Decimal string form of a natural number (`String(n)` in JS). -/
def natToString (n : Nat) : String := ⟨natToChars n⟩

/-- Decimal rendering of an integer, as `JSON.stringify` emits it. -/
def intToChars (n : Int) : List Char :=
  if n < 0 then '-' :: natToChars (-n).toNat else natToChars n.toNat

/-- Lower-case hexadecimal digit character for a value below 16. -/
def hexCh (n : Nat) : Char :=
  if n < 10 then Char.ofNat (48 + n) else Char.ofNat (87 + n)

/-- Escape of one character inside a JSON string literal, following
`JSON.stringify`: quote and backslash get a backslash escape, the common
control characters get their short escapes, any other control character
becomes a `\u00xx` escape, everything else is emitted verbatim. -/
def escapeChar (c : Char) : List Char :=
  if c = '"' then ['\\', '"']
  else if c = '\\' then ['\\', '\\']
  else if c = Char.ofNat 8 then ['\\', 'b']
  else if c = Char.ofNat 9 then ['\\', 't']
  else if c = Char.ofNat 10 then ['\\', 'n']
  else if c = Char.ofNat 12 then ['\\', 'f']
  else if c = Char.ofNat 13 then ['\\', 'r']
  else if c.toNat < 32 then
    let hi := hexCh (c.toNat / 16)
    let lo := hexCh (c.toNat % 16)
    '\\' :: 'u' :: '0' :: '0' :: hi :: [lo]
  else [c]

/-- Escape of a whole string body. -/
def escapeList (l : List Char) : List Char := l.flatMap escapeChar

mutual

/-- Model of `JSON.stringify` restricted to the closed value variant: the
exact character sequence `JSON.stringify` produces (no whitespace, fields in
insertion order, strings escaped by `escapeChar`). -/
def stringifyChars : Json → List Char
  | .null => "null".data
  | .bool true => "true".data
  | .bool false => "false".data
  | .num n => intToChars n
  | .str s => '"' :: (escapeList s.data ++ ['"'])
  | .arr [] => ['[', ']']
  | .arr (v :: vs) => '[' :: (stringifyChars v ++ elemsRest vs)
  | .obj [] => [lbrace, rbrace]
  | .obj ((k, v) :: fs) =>
    lbrace :: '"' :: (escapeList k.data ++ '"' :: ':' :: (stringifyChars v ++ fieldsRest fs))

/-- Serialization of the remaining elements of a nonempty array, each
preceded by a comma, closed by `]`. -/
def elemsRest : List Json → List Char
  | [] => [']']
  | v :: vs => ',' :: (stringifyChars v ++ elemsRest vs)

/-- Serialization of the remaining fields of a nonempty object, each
preceded by a comma, closed by `}`. -/
def fieldsRest : List (String × Json) → List Char
  | [] => [rbrace]
  | (k, v) :: fs =>
    ',' :: '"' :: (escapeList k.data ++ '"' :: ':' :: (stringifyChars v ++ fieldsRest fs))

end

/-- String form of `JSON.stringify`. -/
def stringifyJson (v : Json) : String := ⟨stringifyChars v⟩

/-- Recognizer for JSON hexadecimal digit characters. -/
def isHexChar (c : Char) : Bool :=
  (48 ≤ c.toNat && c.toNat ≤ 57) || (97 ≤ c.toNat && c.toNat ≤ 102)
    || (65 ≤ c.toNat && c.toNat ≤ 70)

/-- Numeric value of a hexadecimal digit character. -/
def hexVal (c : Char) : Nat :=
  if c.toNat ≤ 57 then c.toNat - 48
  else if c.toNat ≤ 70 then c.toNat - 55
  else c.toNat - 87

/-- Prepend a character to the string being accumulated by
`parseStringBody`. -/
def consStr (c : Char) (o : Option (List Char × List Char)) :
    Option (List Char × List Char) :=
  o.map (fun p => (c :: p.1, p.2))

/-- Parser for the body of a JSON string literal (the opening quote already
consumed): returns the unescaped content and the input after the closing
quote. -/
def parseStringBody : List Char → Option (List Char × List Char)
  | [] => none
  | c :: rest =>
    if c = '"' then some ([], rest)
    else if c = '\\' then
      match rest with
      | [] => none
      | e :: rest2 =>
        if e = '"' then consStr '"' (parseStringBody rest2)
        else if e = '\\' then consStr '\\' (parseStringBody rest2)
        else if e = '/' then consStr '/' (parseStringBody rest2)
        else if e = 'b' then consStr (Char.ofNat 8) (parseStringBody rest2)
        else if e = 'f' then consStr (Char.ofNat 12) (parseStringBody rest2)
        else if e = 'n' then consStr (Char.ofNat 10) (parseStringBody rest2)
        else if e = 'r' then consStr (Char.ofNat 13) (parseStringBody rest2)
        else if e = 't' then consStr (Char.ofNat 9) (parseStringBody rest2)
        else if e = 'u' then
          match rest2 with
          | a :: b :: c2 :: d :: rest3 =>
            if isHexChar a && isHexChar b && isHexChar c2 && isHexChar d then
              consStr
                (Char.ofNat (((hexVal a * 16 + hexVal b) * 16 + hexVal c2) * 16 + hexVal d))
                (parseStringBody rest3)
            else none
          | _ => none
        else none
    else consStr c (parseStringBody rest)

/-- Longest digit run at the head of the input. -/
def takeDigits : List Char → List Char × List Char
  | [] => ([], [])
  | c :: cs =>
    if isDigitChar c then
      let p := takeDigits cs
      (c :: p.1, p.2)
    else ([], c :: cs)

/-- Value of a digit run. -/
def digitsToNat (l : List Char) : Nat :=
  l.foldl (fun a c => 10 * a + (c.toNat - 48)) 0

/-- Parser for a nonempty digit run. -/
def parseNatNum (cs : List Char) : Option (Nat × List Char) :=
  let p := takeDigits cs
  if p.1.isEmpty then none else some (digitsToNat p.1, p.2)

mutual

/-- Fuel-indexed model of `JSON.parse` on the whitespace-free fragment that
`MessageFactory` and `JSON.stringify` emit; `fuel ≥ length of the value's
serialization` suffices.  Returns the parsed value and the remaining
input. -/
def parseVal : Nat → List Char → Option (Json × List Char)
  | 0, _ => none
  | fuel+1, cs =>
    match cs with
    | [] => none
    | c :: rest =>
      if c = '"' then (parseStringBody rest).map (fun p => (Json.str ⟨p.1⟩, p.2))
      else if c = 'n' then
        if rest.take 3 = "ull".data then some (Json.null, rest.drop 3) else none
      else if c = 't' then
        if rest.take 3 = "rue".data then some (Json.bool true, rest.drop 3) else none
      else if c = 'f' then
        if rest.take 4 = "alse".data then some (Json.bool false, rest.drop 4) else none
      else if c = '[' then
        if rest.head? = some ']' then some (Json.arr [], rest.tail)
        else (parseElems fuel rest).map (fun p => (Json.arr p.1, p.2))
      else if c = lbrace then
        if rest.head? = some rbrace then some (Json.obj [], rest.tail)
        else (parseFields fuel rest).map (fun p => (Json.obj p.1, p.2))
      else if c = '-' then
        (parseNatNum rest).map (fun p => (Json.num (-(p.1 : Int)), p.2))
      else if isDigitChar c then
        (parseNatNum (c :: rest)).map (fun p => (Json.num (p.1 : Int), p.2))
      else none

/-- Parser for the elements of a nonempty array (after `[`). -/
def parseElems : Nat → List Char → Option (List Json × List Char)
  | 0, _ => none
  | fuel+1, cs =>
    match parseVal fuel cs with
    | none => none
    | some (v, r) =>
      match r with
      | [] => none
      | c :: r2 =>
        if c = ',' then (parseElems fuel r2).map (fun p => (v :: p.1, p.2))
        else if c = ']' then some ([v], r2)
        else none

/-- Parser for the fields of a nonempty object (after `{`). -/
def parseFields : Nat → List Char → Option (List (String × Json) × List Char)
  | 0, _ => none
  | fuel+1, cs =>
    match cs with
    | [] => none
    | c :: rest =>
      if c = '"' then
        match parseStringBody rest with
        | none => none
        | some (k, r) =>
          match r with
          | [] => none
          | c2 :: r2 =>
            if c2 = ':' then
              match parseVal fuel r2 with
              | none => none
              | some (v, r3) =>
                match r3 with
                | [] => none
                | c3 :: r4 =>
                  if c3 = ',' then
                    (parseFields fuel r4).map (fun p => ((⟨k⟩, v) :: p.1, p.2))
                  else if c3 = rbrace then some ([(⟨k⟩, v)], r4)
                  else none
            else none
      else none

end

/-- Model of `JSON.parse` on a whole string: the parse must consume the
entire input. -/
def parseJson (s : String) : Option Json :=
  match parseVal (s.data.length + 1) s.data with
  | some (v, []) => some v
  | _ => none

/-- Input whose first character is not a decimal digit (the condition under
which a serialized number followed by that input parses back exactly). -/
def noLeadDigit (rest : List Char) : Prop :=
  ∀ c, rest.head? = some c → isDigitChar c = false

/-- A string whose characters all serialize verbatim inside a JSON string
literal (no quote, backslash, or control character). -/
def JsonSafeStr (s : String) : Prop := ∀ c ∈ s.data, escapeChar c = [c]

/-- Association-list model of a string-keyed JS object
(`Object.create(null)` tables).  Lookup `m[key]`. -/
def getEntry {α : Type} : List (String × α) → String → Option α
  | [], _ => none
  | (k, v) :: t, key => if k = key then some v else getEntry t key

/-- Assignment `m[key] = v`: overwrites in place, appends when absent. -/
def setEntry {α : Type} : List (String × α) → String → α → List (String × α)
  | [], key, v => [(key, v)]
  | (k, w) :: t, key, v => if k = key then (key, v) :: t else (k, w) :: setEntry t key v

/-- Deletion `delete m[key]`.  (A JS object holds each key at most once;
on lists with duplicated keys, which no JS object produces, every copy is
removed.) -/
def delEntry {α : Type} : List (String × α) → String → List (String × α)
  | [], _ => []
  | (k, v) :: t, key => if k = key then delEntry t key else (k, v) :: delEntry t key

/-- Membership test `m.hasOwnProperty(key)`. -/
def hasKey {α : Type} (m : List (String × α)) (key : String) : Bool :=
  (getEntry m key).isSome

/-- Decode a wire message with `JSON.parse` and read one property of the
resulting object. -/
def decodeField (raw : String) (key : String) : Option Json :=
  match parseJson raw with
  | some (Json.obj fs) => getEntry fs key
  | _ => none

/-- Model of a JS `Error` value: `name`, `message`, `stack`, plus the
untyped `stacktrace` property that `transformErrorForSerialization` reads
(`none` stands for `undefined`). -/
structure JsError where
  name : String
  message : String
  stack : String
  stacktrace : Option String
deriving DecidableEq

/-- A JS value in error position: an `Error` instance, or any other value
(the two sides of the `instanceof Error` test). -/
inductive ErrArg where
  | jsError (e : JsError)
  | value (v : Json)

/-- Model of `canceled()` (lines 182-186): `new Error('Canceled')` with
`error.name = error.message`.  The runtime-assigned stack text is not
modelled (no claim inspects it). -/
def canceled : JsError := ⟨"Canceled", "Canceled", "", none⟩

/-- Model of `new Error(msg)`: name `"Error"`, the given message.  The
runtime-assigned stack text is not modelled (no claim inspects it). -/
def mkError (msg : String) : JsError := ⟨"Error", msg, "", none⟩

/-- JS `a || b` on an optional string property: `undefined` and the empty
string are falsy. -/
def jsOrString (a : Option String) (b : String) : String :=
  match a with
  | some s => if s = "" then b else s
  | none => b

/-- Model of `transformErrorForSerialization` (lines 284-298) on an `Error`
instance: the `{$isError, name, message, stack}` object in that field order,
with `(<any>error).stacktrace || error.stack` as the stack.  (The function's
non-`Error` pass-through branch is unreachable from `MessageFactory.replyErr`,
whose guard only lets `Error` instances through.) -/
def transformErrorForSerialization (error : JsError) : Json :=
  Json.obj [("$isError", Json.bool true), ("name", Json.str error.name),
    ("message", Json.str error.message),
    ("stack", Json.str (jsOrString error.stacktrace error.stack))]

/-- Model of `MessageFactory.request` (lines 230-232): a raw template
string with the `MessageType.Request` discriminant `1` inlined; `req`,
`rpcId` and `method` are interpolated verbatim (not escaped), `args` via
`JSON.stringify`. -/
def MessageFactory.request (req rpcId method : String) (args : List Json) : String :=
  "\x7b\"type\":1,\"id\":\"" ++ req ++ "\",\"proxyId\":\"" ++ rpcId ++ "\",\"method\":\""
    ++ method ++ "\",\"args\":" ++ stringifyJson (Json.arr args) ++ "\x7d"

/-- Model of `MessageFactory.replyOK` (lines 234-239): the `res` field is
omitted entirely when the result is `undefined` (`none`). -/
def MessageFactory.replyOK (req : String) (res : Option Json) : String :=
  match res with
  | none => "\x7b\"type\":2,\"id\":\"" ++ req ++ "\"\x7d"
  | some v => "\x7b\"type\":2,\"id\":\"" ++ req ++ "\",\"res\":" ++ stringifyJson v ++ "\x7d"

/-- Model of `MessageFactory.replyErr` (lines 241-246): an `Error` instance
is serialized through `transformErrorForSerialization`; any other value
(including `null` and `undefined`) yields an explicit `"err":null`. -/
def MessageFactory.replyErr (req : String) (err : ErrArg) : String :=
  match err with
  | .jsError e =>
    "\x7b\"type\":3,\"id\":\"" ++ req ++ "\",\"err\":"
      ++ stringifyJson (transformErrorForSerialization e) ++ "\x7d"
  | .value _ => "\x7b\"type\":3,\"id\":\"" ++ req ++ "\",\"err\":null\x7d"

/-- Modelled from the spec: the `LazyPromise` imported from
`./lazy-promise` is not under `src`.  Spec §3/§4.2 describe the Deferred
Result as a one-shot cell with state Pending, ResolvedOk(value),
ResolvedErr(error) or the terminal Canceled, where settling is one-way. -/
inductive LPState where
  | pending
  | resolvedOk (v : Option Json)
  | resolvedErr (e : Option JsError)
  | canceled

/-- Modelled from the spec (§4.2): `resolveOk` settles a pending Deferred
Result; calling it again after any terminal state is ignored. -/
def LPState.resolveOk (p : LPState) (v : Option Json) : LPState :=
  match p with
  | .pending => .resolvedOk v
  | t => t

/-- Modelled from the spec (§4.2): `resolveErr` settles a pending Deferred
Result with a failure; repeated settling is ignored. -/
def LPState.resolveErr (p : LPState) (e : Option JsError) : LPState :=
  match p with
  | .pending => .resolvedErr e
  | t => t

/-- Modelled from the spec (§5): session-level cancellation moves a pending
Deferred Result to the distinguished Canceled failure state; settled cells
are unaffected. -/
def LPState.cancel (p : LPState) : LPState :=
  match p with
  | .pending => .canceled
  | t => t

/-- Eventual outcome of the promise an actor method invocation produces. -/
inductive HandlerOutcome where
  | resolved (v : Option Json)
  | rejected (e : ErrArg)

/-- Behavior of one call of an actor method in JS: return a plain value
(`none` for `undefined`), return a promise, or throw synchronously. -/
inductive MethodResult where
  | value (v : Option Json)
  | promise (o : HandlerOutcome)
  | throws (e : ErrArg)

/-- One property of an actor object: a callable method, or a plain
non-function value (which `typeof actor[name] !== 'function'` rejects). -/
inductive Member where
  | method (f : List Json → MethodResult)
  | plain (v : Json)

/-- An actor: a JS object registered in the `locals` table for remote
invocation. -/
def Actor : Type := List (String × Member)

/-- State of an `RPCProtocolImpl` instance (lines 44-61): the disposed
flag, the actor table `locals`, the call-id counter `lastMessageId`, the
transient `invokedHandlers` key set, and the `pendingRPCReplies` table
holding each outstanding call's Deferred Result state. -/
structure RPCState where
  isDisposed : Bool
  locals : List (String × Actor)
  lastMessageId : Nat
  invokedHandlers : List String
  pendingRPCReplies : List (String × LPState)

/-- Result of `remoteCall` as the caller sees it: an immediately rejected
promise, or the pending Deferred Result registered under a fresh call id. -/
inductive RemoteCallResult where
  | rejected (e : JsError)
  | pending (callId : String)
deriving DecidableEq

/-- Model of `RPCProtocolImpl.remoteCall` (lines 82-93): when disposed,
reject immediately with `canceled()` touching nothing; otherwise allocate
`String(++lastMessageId)`, register a pending Deferred Result, and hand one
encoded request to the multiplexer.  The third component collects the
strings passed to `multiplexor.send`. -/
def remoteCall (s : RPCState) (proxyId methodName : String) (args : List Json) :
    RPCState × RemoteCallResult × List String :=
  if s.isDisposed then (s, .rejected canceled, [])
  else
    let callId := natToString (s.lastMessageId + 1)
    ({ s with lastMessageId := s.lastMessageId + 1,
              pendingRPCReplies := setEntry s.pendingRPCReplies callId .pending },
     .pending callId,
     [MessageFactory.request callId proxyId methodName args])

/-- Modelled from the spec: `rpc-protocol.ts` under `src` declares the
`isDisposed` flag and short-circuits on it, but the disposal entry point
itself is not under `src`.  Spec §5: disposing "forcibly settles every
outstanding Deferred Result with a cancellation failure and flips a
disposed flag". -/
def dispose (s : RPCState) : RPCState :=
  { s with isDisposed := true,
           pendingRPCReplies := s.pendingRPCReplies.map (fun e => (e.1, e.2.cancel)) }

/-- Property access on a parsed JSON value (`none` stands for
`undefined`). -/
def jsField (m : Json) (k : String) : Option Json :=
  match m with
  | .obj fs => getEntry fs k
  | _ => none

/-- JS truthiness of a parsed JSON value. -/
def jsTruthy : Json → Bool
  | .null => false
  | .bool b => b
  | .num n => decide (n ≠ 0)
  | .str s => decide (s ≠ "")
  | .arr _ => true
  | .obj _ => true

/-- Read a field used as a string.  Every message `MessageFactory` builds
carries strings in the `id`, `name`, `message` and `stack` positions, so
the `""` default is never exercised by protocol traffic. -/
def strD : Option Json → String
  | some (.str s) => s
  | _ => ""

/-- Model of `RPCProtocolImpl.receiveReply` (lines 130-140) on the parsed
message object: drop the message when the call id has no outstanding entry;
otherwise remove the entry and resolve its Deferred Result with `msg.res`.
The second component reports the settlement applied, `none` when the
message was ignored. -/
def receiveReply (s : RPCState) (msg : Json) : RPCState × Option (String × LPState) :=
  let callId := strD (jsField msg "id")
  match getEntry s.pendingRPCReplies callId with
  | none => (s, none)
  | some p =>
    ({ s with pendingRPCReplies := delEntry s.pendingRPCReplies callId },
     some (callId, p.resolveOk (jsField msg "res")))

/-- Model of `RPCProtocolImpl.receiveReplyErr` (lines 142-159): drop the
message when the call id has no outstanding entry; otherwise remove the
entry and reject its Deferred Result — with a reconstructed `Error` when
`msg.err` is truthy and carries `$isError`, and with `null` otherwise. -/
def receiveReplyErr (s : RPCState) (msg : Json) : RPCState × Option (String × LPState) :=
  let callId := strD (jsField msg "id")
  match getEntry s.pendingRPCReplies callId with
  | none => (s, none)
  | some p =>
    let err : Option JsError :=
      match jsField msg "err" with
      | none => none
      | some e =>
        if jsTruthy e && jsTruthy ((jsField e "$isError").getD Json.null) then
          some { name := strD (jsField e "name"), message := strD (jsField e "message"),
                 stack := strD (jsField e "stack"), stacktrace := none }
        else none
    ({ s with pendingRPCReplies := delEntry s.pendingRPCReplies callId },
     some (callId, p.resolveErr err))

/-- Result of `doInvokeHandler`: a synchronous throw, or a returned
value/promise. -/
inductive DoInvokeResult where
  | threw (e : ErrArg)
  | ret (r : MethodResult)

/-- Model of `doInvokeHandler` (lines 169-179): throw `Unknown actor` when
the `proxyId` is not registered, throw `Unknown method ... on actor ...`
when the member is not a function, otherwise apply the method.  The second
component records which actor method (if any) was invoked. -/
def doInvokeHandler (locals : List (String × Actor)) (proxyId methodName : String)
    (args : List Json) : DoInvokeResult × Option (String × String) :=
  match getEntry locals proxyId with
  | none => (.threw (.jsError (mkError ("Unknown actor " ++ proxyId))), none)
  | some actor =>
    match getEntry actor methodName with
    | some (.method f) =>
      (match f args with
       | .throws e => .threw e
       | r => .ret r,
       some (proxyId, methodName))
    | _ =>
      (.threw (.jsError (mkError ("Unknown method " ++ methodName ++ " on actor " ++ proxyId))),
       none)

/-- Model of `invokeHandler` (lines 161-167): a synchronous throw out of
`doInvokeHandler` is caught and turned into a rejected promise
(`Promise.reject`); `Promise.resolve` adopts a returned promise and wraps a
plain return value. -/
def invokeHandler (locals : List (String × Actor)) (proxyId methodName : String)
    (args : List Json) : HandlerOutcome × Option (String × String) :=
  let (r, inv) := doInvokeHandler locals proxyId methodName args
  (match r with
   | .threw e => .rejected e
   | .ret (.value v) => .resolved v
   | .ret (.promise o) => o
   | .ret (.throws e) => .rejected e,
   inv)

/-- First half of `receiveRequest` (lines 115-128): store the in-flight
handler promise under the call id and start the invocation. -/
def receiveRequestStart (s : RPCState) (callId proxyId methodName : String)
    (args : List Json) : RPCState × HandlerOutcome × Option (String × String) :=
  let (o, inv) := invokeHandler s.locals proxyId methodName args
  ({ s with invokedHandlers :=
      if callId ∈ s.invokedHandlers then s.invokedHandlers
      else s.invokedHandlers ++ [callId] },
   o, inv)

/-- Second half of `receiveRequest` (the `then` continuation, lines
121-127): when the handler promise settles, delete the transient entry and
send exactly one reply — ok on resolution, err on rejection — under the
original call id. -/
def handlerSettled (s : RPCState) (callId : String) (o : HandlerOutcome) :
    RPCState × List String :=
  match o with
  | .resolved v =>
    ({ s with invokedHandlers := s.invokedHandlers.filter (fun k => decide (k ≠ callId)) },
     [MessageFactory.replyOK callId v])
  | .rejected e =>
    ({ s with invokedHandlers := s.invokedHandlers.filter (fun k => decide (k ≠ callId)) },
     [MessageFactory.replyErr callId e])

/-- Whole-transaction model of `receiveRequest`: both halves composed, as
the single-threaded scheduler runs the continuation once the handler
settles. -/
def receiveRequest (s : RPCState) (callId proxyId methodName : String)
    (args : List Json) : RPCState × List String :=
  let (s1, o, _) := receiveRequestStart s callId proxyId methodName args
  handlerSettled s1 callId o

/-- Outbound state of the `RPCMultiplexer` (lines 193-226): the
accumulated `messagesToSend` queue. -/
structure MuxState where
  messagesToSend : List String
deriving DecidableEq

/-- Model of `RPCMultiplexer.send` (lines 220-225): append to the queue
and, when the queue was empty, schedule `sendAccumulated` for a later
scheduling turn (`setImmediate` — never synchronously within `send`, which
is why no transport send appears here).  The flag records whether this call
scheduled a flush. -/
def muxSend (s : MuxState) (msg : String) : MuxState × Bool :=
  (⟨s.messagesToSend ++ [msg]⟩, s.messagesToSend.isEmpty)

/-- A burst of `send` calls issued synchronously within one scheduling
turn, counting how many flushes got scheduled during the burst. -/
def muxSendAll (s : MuxState) (msgs : List String) : MuxState × Nat :=
  match msgs with
  | [] => (s, 0)
  | m :: rest =>
    let p := muxSend s m
    let q := muxSendAll p.1 rest
    (q.1, (if p.2 then 1 else 0) + q.2)

/-- Model of `RPCMultiplexer.sendAccumulated` (lines 214-218): take the
queue, reset it, and hand the whole batch to one `connection.send`.  The
second component is that single batch. -/
def sendAccumulated (s : MuxState) : MuxState × List String :=
  (⟨[]⟩, s.messagesToSend)

/-- The test `name.charCodeAt(0) === 36`: the `$` naming convention for
remotely-callable members (`charCodeAt` of an empty string is `NaN`). -/
def startsWithDollar (name : String) : Bool :=
  match name.data with
  | [] => false
  | c :: _ => c = '$'

/-- A property cached on a proxy's backing target: the installed
forwarding function `(...args) => remoteCall(proxyId, name, args)`. -/
inductive ProxyMember where
  | remoteMethod (proxyId name : String)
deriving DecidableEq

/-- Model of the `get` trap in `createProxy` (lines 69-80): when the
property is absent (falsy) and the name starts with `$`, install the
forwarding function; then return the property, which stays `undefined`
(`none`) for every other absent name. -/
def proxyGet (proxyId : String) (target : List (String × ProxyMember)) (name : String) :
    List (String × ProxyMember) × Option ProxyMember :=
  match getEntry target name with
  | some m => (target, some m)
  | none =>
    if startsWithDollar name then
      (setEntry target name (.remoteMethod proxyId name),
       some (.remoteMethod proxyId name))
    else (target, none)

/-- Calling a proxy-installed member routes through the shared
`remoteCall` path. -/
def invokeProxyMember (m : ProxyMember) (s : RPCState) (args : List Json) :
    RPCState × RemoteCallResult × List String :=
  match m with
  | .remoteMethod proxyId name => remoteCall s proxyId name args

/-- Well-formedness of the outstanding-call table: pairwise distinct keys,
each the decimal form of an already allocated counter value (between 1 and
`lastMessageId`). -/
def GoodIds (s : RPCState) : Prop :=
  (s.pendingRPCReplies.map Prod.fst).Nodup ∧
  ∀ k ∈ s.pendingRPCReplies.map Prod.fst,
    ∃ n, 1 ≤ n ∧ n ≤ s.lastMessageId ∧ k = natToString n

theorem natToCharsAux_irrel (n : Nat) :
    ∀ f1 f2, n < f1 → n < f2 → natToCharsAux f1 n = natToCharsAux f2 n := by
  induction n using Nat.strong_induction_on with
  | _ n ih =>
    intro f1 f2 h1 h2
    match f1, f2 with
    | g1 + 1, g2 + 1 =>
      by_cases h10 : n < 10
      · simp [natToCharsAux, h10]
      · have hd : n / 10 < n := Nat.div_lt_self (by omega) (by omega)
        simp only [natToCharsAux, if_neg h10]
        rw [ih (n / 10) hd g1 g2 (by omega) (by omega)]

theorem natToCharsAux_succ (fuel n : Nat) :
    natToCharsAux (fuel + 1) n =
      if n < 10 then [decDigit n] else natToCharsAux fuel (n / 10) ++ [decDigit (n % 10)] := rfl

theorem natToChars_eq (n : Nat) :
    natToChars n =
      if n < 10 then [decDigit n] else natToChars (n / 10) ++ [decDigit (n % 10)] := by
  by_cases h10 : n < 10
  · simp [natToChars, natToCharsAux_succ, h10]
  · have hd : n / 10 < n := Nat.div_lt_self (by omega) (by omega)
    rw [if_neg h10]
    show natToCharsAux (n + 1) n = _
    rw [natToCharsAux_succ, if_neg h10,
      natToCharsAux_irrel (n / 10) n (n / 10 + 1) (by omega) (by omega)]
    rfl

theorem natToChars_ne_nil (n : Nat) : natToChars n ≠ [] := by
  rw [natToChars_eq]
  split <;> simp

theorem decDigit_toNat (m : Nat) (h : m < 10) : (decDigit m).toNat = 48 + m := by
  interval_cases m <;> decide

theorem isDigitChar_decDigit (m : Nat) (h : m < 10) : isDigitChar (decDigit m) = true := by
  interval_cases m <;> decide

theorem natToChars_digits (n : Nat) : ∀ c ∈ natToChars n, isDigitChar c = true := by
  induction n using Nat.strong_induction_on with
  | _ n ih =>
    intro c hc
    rw [natToChars_eq] at hc
    by_cases h10 : n < 10
    · rw [if_pos h10] at hc
      simp only [List.mem_singleton] at hc
      exact hc ▸ isDigitChar_decDigit n h10
    · rw [if_neg h10] at hc
      have hdiv : n / 10 < n := by omega
      have hmod : n % 10 < 10 := by omega
      rcases List.mem_append.mp hc with hfront | hlast
      · exact ih _ hdiv c hfront
      · simp only [List.mem_singleton] at hlast
        exact hlast ▸ isDigitChar_decDigit _ hmod

theorem digitsToNat_append_digit (l : List Char) (c : Char) :
    digitsToNat (l ++ [c]) = 10 * digitsToNat l + (c.toNat - 48) := by
  simp [digitsToNat, List.foldl_append]

theorem digitsToNat_natToChars (n : Nat) : digitsToNat (natToChars n) = n := by
  induction n using Nat.strong_induction_on with
  | _ n ih =>
    rw [natToChars_eq]
    by_cases h10 : n < 10
    · rw [if_pos h10]
      simp [digitsToNat, decDigit_toNat n h10]
    · have hdiv : n / 10 < n := by omega
      have hmod : n % 10 < 10 := by omega
      rw [if_neg h10, digitsToNat_append_digit, ih _ hdiv, decDigit_toNat _ hmod]
      omega

theorem natToString_injective (m n : Nat) (h : natToString m = natToString n) : m = n := by
  have hd : natToChars m = natToChars n := congrArg String.data h
  have := digitsToNat_natToChars m
  rw [hd, digitsToNat_natToChars n] at this
  omega

theorem takeDigits_run (l : List Char) (rest : List Char)
    (hl : ∀ c ∈ l, isDigitChar c = true) (h : noLeadDigit rest) :
    takeDigits (l ++ rest) = (l, rest) := by
  induction l with
  | nil =>
    simp only [List.nil_append]
    cases rest with
    | nil => rfl
    | cons c t => simp [takeDigits, h c rfl]
  | cons c t ih =>
    have hc : isDigitChar c = true := hl c (List.mem_cons_self c t)
    simp [takeDigits, hc, ih (fun x hx => hl x (List.mem_cons_of_mem c hx))]

theorem parseNatNum_spec (n : Nat) (rest : List Char) (h : noLeadDigit rest) :
    parseNatNum (natToChars n ++ rest) = some (n, rest) := by
  have ht := takeDigits_run (natToChars n) rest (natToChars_digits n) h
  have hne : (natToChars n).isEmpty = false := by
    cases heq : natToChars n with
    | nil => exact absurd heq (natToChars_ne_nil n)
    | cons a t => rfl
  simp [parseNatNum, ht, hne, digitsToNat_natToChars n]

theorem escapeList_nil : escapeList [] = [] := rfl

theorem escapeList_cons (c : Char) (l : List Char) :
    escapeList (c :: l) = escapeChar c ++ escapeList l := rfl

theorem escapeList_safe (l : List Char) (h : ∀ c ∈ l, escapeChar c = [c]) :
    escapeList l = l := by
  induction l with
  | nil => rfl
  | cons c t ih =>
    rw [escapeList_cons, h c (List.mem_cons_self c t),
      ih (fun x hx => h x (List.mem_cons_of_mem c hx))]
    rfl

theorem hexVal_hexCh (m : Nat) (h : m < 16) : hexVal (hexCh m) = m := by
  interval_cases m <;> decide

theorem isHexChar_hexCh (m : Nat) (h : m < 16) : isHexChar (hexCh m) = true := by
  interval_cases m <;> decide

theorem parseStringBody_quote (cs : List Char) : parseStringBody ('"' :: cs) = some ([], cs) := by
  rw [parseStringBody.eq_def]; rfl

theorem parseStringBody_escQuote (cs : List Char) :
    parseStringBody ('\\' :: '"' :: cs) = consStr '"' (parseStringBody cs) := by
  rw [parseStringBody.eq_def]; rfl

theorem parseStringBody_escBackslash (cs : List Char) :
    parseStringBody ('\\' :: '\\' :: cs) = consStr '\\' (parseStringBody cs) := by
  rw [parseStringBody.eq_def]; rfl

theorem parseStringBody_escB (cs : List Char) :
    parseStringBody ('\\' :: 'b' :: cs) = consStr (Char.ofNat 8) (parseStringBody cs) := by
  rw [parseStringBody.eq_def]; rfl

theorem parseStringBody_escT (cs : List Char) :
    parseStringBody ('\\' :: 't' :: cs) = consStr (Char.ofNat 9) (parseStringBody cs) := by
  rw [parseStringBody.eq_def]; rfl

theorem parseStringBody_escN (cs : List Char) :
    parseStringBody ('\\' :: 'n' :: cs) = consStr (Char.ofNat 10) (parseStringBody cs) := by
  rw [parseStringBody.eq_def]; rfl

theorem parseStringBody_escF (cs : List Char) :
    parseStringBody ('\\' :: 'f' :: cs) = consStr (Char.ofNat 12) (parseStringBody cs) := by
  rw [parseStringBody.eq_def]; rfl

theorem parseStringBody_escR (cs : List Char) :
    parseStringBody ('\\' :: 'r' :: cs) = consStr (Char.ofNat 13) (parseStringBody cs) := by
  rw [parseStringBody.eq_def]; rfl

theorem parseStringBody_escU (a b c2 d : Char) (cs : List Char)
    (h : (isHexChar a && isHexChar b && isHexChar c2 && isHexChar d) = true) :
    parseStringBody ('\\' :: 'u' :: a :: b :: c2 :: d :: cs)
      = consStr (Char.ofNat (((hexVal a * 16 + hexVal b) * 16 + hexVal c2) * 16 + hexVal d))
          (parseStringBody cs) := by
  rw [parseStringBody.eq_def]
  simp [h]

theorem parseStringBody_cons_plain (c : Char) (cs : List Char) (h1 : c ≠ '"') (h2 : c ≠ '\\') :
    parseStringBody (c :: cs) = consStr c (parseStringBody cs) := by
  rw [parseStringBody.eq_def]
  simp [h1, h2]

theorem parseStringBody_escape (l : List Char) (rest : List Char) :
    parseStringBody (escapeList l ++ ('"' :: rest)) = some (l, rest) := by
  induction l with
  | nil => rw [escapeList_nil, List.nil_append, parseStringBody_quote]
  | cons c t ih =>
    rw [escapeList_cons, List.append_assoc]
    by_cases h1 : c = '"'
    · subst h1
      rw [show escapeChar '"' = ['\\', '"'] from rfl]
      simp only [List.cons_append, List.nil_append]
      rw [parseStringBody_escQuote, ih]
      rfl
    · by_cases h2 : c = '\\'
      · subst h2
        rw [show escapeChar '\\' = ['\\', '\\'] from rfl]
        simp only [List.cons_append, List.nil_append]
        rw [parseStringBody_escBackslash, ih]
        rfl
      · by_cases h3 : c = Char.ofNat 8
        · subst h3
          rw [show escapeChar (Char.ofNat 8) = ['\\', 'b'] from rfl]
          simp only [List.cons_append, List.nil_append]
          rw [parseStringBody_escB, ih]
          rfl
        · by_cases h4 : c = Char.ofNat 9
          · subst h4
            rw [show escapeChar (Char.ofNat 9) = ['\\', 't'] from rfl]
            simp only [List.cons_append, List.nil_append]
            rw [parseStringBody_escT, ih]
            rfl
          · by_cases h5 : c = Char.ofNat 10
            · subst h5
              rw [show escapeChar (Char.ofNat 10) = ['\\', 'n'] from rfl]
              simp only [List.cons_append, List.nil_append]
              rw [parseStringBody_escN, ih]
              rfl
            · by_cases h6 : c = Char.ofNat 12
              · subst h6
                rw [show escapeChar (Char.ofNat 12) = ['\\', 'f'] from rfl]
                simp only [List.cons_append, List.nil_append]
                rw [parseStringBody_escF, ih]
                rfl
              · by_cases h7 : c = Char.ofNat 13
                · subst h7
                  rw [show escapeChar (Char.ofNat 13) = ['\\', 'r'] from rfl]
                  simp only [List.cons_append, List.nil_append]
                  rw [parseStringBody_escR, ih]
                  rfl
                · by_cases h8 : c.toNat < 32
                  · have hesc : escapeChar c =
                        ['\\', 'u', '0', '0', hexCh (c.toNat / 16),
                          hexCh (c.toNat % 16)] := by
                      simp [escapeChar, h1, h2, h3, h4, h5, h6, h7, h8]
                    rw [hesc]
                    have hdiv : c.toNat / 16 < 16 := by omega
                    have hmod : c.toNat % 16 < 16 := by omega
                    simp only [List.cons_append, List.nil_append]
                    rw [parseStringBody_escU '0' '0' (hexCh (c.toNat / 16))
                        (hexCh (c.toNat % 16)) _
                        (by simp [isHexChar_hexCh _ hdiv, isHexChar_hexCh _ hmod]
                            decide)]
                    rw [ih]
                    have hval : ((hexVal '0' * 16 + hexVal '0') * 16
                        + hexVal (hexCh (c.toNat / 16))) * 16
                        + hexVal (hexCh (c.toNat % 16)) = c.toNat := by
                      rw [hexVal_hexCh _ hdiv, hexVal_hexCh _ hmod,
                        show hexVal '0' = 0 from rfl]
                      omega
                    rw [hval, Char.ofNat_toNat]
                    rfl
                  · have hesc : escapeChar c = [c] := by
                      simp [escapeChar, h1, h2, h3, h4, h5, h6, h7, h8]
                    rw [hesc]
                    simp only [List.cons_append, List.nil_append]
                    rw [parseStringBody_cons_plain c _ h1 h2, ih]
                    rfl

theorem parseStringBody_safe (l : List Char) (rest : List Char)
    (h : ∀ c ∈ l, escapeChar c = [c]) :
    parseStringBody (l ++ ('"' :: rest)) = some (l, rest) := by
  have := parseStringBody_escape l rest
  rwa [escapeList_safe l h] at this

theorem stringify_null : stringifyChars Json.null = "null".data := rfl

theorem stringify_true : stringifyChars (Json.bool true) = "true".data := rfl

theorem stringify_false : stringifyChars (Json.bool false) = "false".data := rfl

theorem stringify_num (n : Int) : stringifyChars (Json.num n) = intToChars n := rfl

theorem stringify_str (s : String) :
    stringifyChars (Json.str s) = '"' :: (escapeList s.data ++ ['"']) := rfl

theorem stringify_arr_nil : stringifyChars (Json.arr []) = ['[', ']'] := rfl

theorem stringify_arr_cons (v : Json) (vs : List Json) :
    stringifyChars (Json.arr (v :: vs)) = '[' :: (stringifyChars v ++ elemsRest vs) := rfl

theorem stringify_obj_nil : stringifyChars (Json.obj []) = [lbrace, rbrace] := rfl

theorem stringify_obj_cons (k : String) (v : Json) (fs : List (String × Json)) :
    stringifyChars (Json.obj ((k, v) :: fs))
      = lbrace :: '"' :: (escapeList k.data ++ '"' :: ':' :: (stringifyChars v ++ fieldsRest fs)) :=
  rfl

theorem elemsRest_nil : elemsRest [] = [']'] := rfl

theorem elemsRest_cons (v : Json) (vs : List Json) :
    elemsRest (v :: vs) = ',' :: (stringifyChars v ++ elemsRest vs) := rfl

theorem fieldsRest_nil : fieldsRest [] = [rbrace] := rfl

theorem fieldsRest_cons (k : String) (v : Json) (fs : List (String × Json)) :
    fieldsRest ((k, v) :: fs)
      = ',' :: '"' :: (escapeList k.data ++ '"' :: ':' :: (stringifyChars v ++ fieldsRest fs)) :=
  rfl

theorem stringify_ne_nil (v : Json) : stringifyChars v ≠ [] := by
  cases v with
  | null => simp [stringify_null]
  | bool b => cases b <;> simp [stringify_true, stringify_false]
  | num n =>
    rw [stringify_num, intToChars]
    split
    · simp
    · exact natToChars_ne_nil _
  | str s => simp [stringify_str]
  | arr l => cases l <;> simp [stringify_arr_nil, stringify_arr_cons]
  | obj l =>
    match l with
    | [] => simp [stringify_obj_nil]
    | (k, v) :: fs => simp [stringify_obj_cons]

theorem elemsRest_length_pos (vs : List Json) : 1 ≤ (elemsRest vs).length := by
  cases vs <;> simp [elemsRest_nil, elemsRest_cons]

theorem fieldsRest_length_pos (fs : List (String × Json)) : 1 ≤ (fieldsRest fs).length := by
  match fs with
  | [] => simp [fieldsRest_nil]
  | (k, v) :: fs => simp [fieldsRest_cons]

theorem intToChars_head (n : Int) :
    ∃ c t, intToChars n = c :: t ∧ (c = '-' ∨ isDigitChar c = true) := by
  rw [intToChars]
  split
  · exact ⟨'-', _, rfl, Or.inl rfl⟩
  · cases heq : natToChars n.toNat with
    | nil => exact absurd heq (natToChars_ne_nil _)
    | cons c t =>
      refine ⟨c, t, rfl, Or.inr ?_⟩
      exact natToChars_digits n.toNat c (heq ▸ List.mem_cons_self c t)

theorem stringify_head_ne_rbrack (v : Json) (cs : List Char) :
    (stringifyChars v ++ cs).head? ≠ some ']' := by
  cases v with
  | null => simp [stringify_null]
  | bool b => cases b <;> simp [stringify_true, stringify_false]
  | num n =>
    obtain ⟨c, t, heq, hc⟩ := intToChars_head n
    rw [stringify_num, heq]
    intro h
    simp only [List.cons_append, List.head?_cons, Option.some_inj] at h
    subst h
    rcases hc with h | h
    · exact absurd h (by decide)
    · exact absurd h (by decide)
  | str s => simp [stringify_str]
  | arr l => cases l <;> simp [stringify_arr_nil, stringify_arr_cons]
  | obj l =>
    match l with
    | [] =>
      simp only [stringify_obj_nil, List.cons_append, List.head?_cons]
      decide
    | (k, v) :: fs =>
      simp only [stringify_obj_cons, List.cons_append, List.head?_cons]
      decide

theorem noLeadDigit_elemsRest (vs : List Json) (rest : List Char) :
    noLeadDigit (elemsRest vs ++ rest) := by
  cases vs with
  | nil =>
    intro c hc
    simp only [elemsRest_nil, List.cons_append, List.head?_cons, Option.some_inj] at hc
    subst hc; decide
  | cons v vs =>
    intro c hc
    simp only [elemsRest_cons, List.cons_append, List.head?_cons, Option.some_inj] at hc
    subst hc; decide

theorem noLeadDigit_fieldsRest (fs : List (String × Json)) (rest : List Char) :
    noLeadDigit (fieldsRest fs ++ rest) := by
  match fs with
  | [] =>
    intro c hc
    simp only [fieldsRest_nil, List.cons_append, List.head?_cons, Option.some_inj] at hc
    subst hc; decide
  | (k, v) :: fs =>
    intro c hc
    simp only [fieldsRest_cons, List.cons_append, List.head?_cons, Option.some_inj] at hc
    subst hc; decide

set_option maxHeartbeats 1600000 in
theorem parseVal_quote (fuel : Nat) (cs : List Char) :
    parseVal (fuel + 1) ('"' :: cs)
      = (parseStringBody cs).map (fun p => (Json.str ⟨p.1⟩, p.2)) := by
  rw [parseVal.eq_def]
  dsimp only
  simp

set_option maxHeartbeats 1600000 in
theorem parseVal_null (fuel : Nat) (cs : List Char) :
    parseVal (fuel + 1) ("null".data ++ cs) = some (Json.null, cs) := by
  rw [parseVal.eq_def]
  dsimp only
  simp

set_option maxHeartbeats 1600000 in
theorem parseVal_true (fuel : Nat) (cs : List Char) :
    parseVal (fuel + 1) ("true".data ++ cs) = some (Json.bool true, cs) := by
  rw [parseVal.eq_def]
  dsimp only
  simp

set_option maxHeartbeats 1600000 in
theorem parseVal_false (fuel : Nat) (cs : List Char) :
    parseVal (fuel + 1) ("false".data ++ cs) = some (Json.bool false, cs) := by
  rw [parseVal.eq_def]
  dsimp only
  simp

set_option maxHeartbeats 1600000 in
theorem parseVal_lbrack (fuel : Nat) (cs : List Char) :
    parseVal (fuel + 1) ('[' :: cs)
      = if cs.head? = some ']' then some (Json.arr [], cs.tail)
        else (parseElems fuel cs).map (fun p => (Json.arr p.1, p.2)) := by
  rw [parseVal.eq_def]
  dsimp only
  simp

set_option maxHeartbeats 1600000 in
theorem parseVal_lbrace (fuel : Nat) (cs : List Char) :
    parseVal (fuel + 1) (lbrace :: cs)
      = if cs.head? = some rbrace then some (Json.obj [], cs.tail)
        else (parseFields fuel cs).map (fun p => (Json.obj p.1, p.2)) := by
  rw [parseVal.eq_def]
  dsimp only
  simp [lbrace]

set_option maxHeartbeats 1600000 in
theorem parseVal_neg (fuel : Nat) (cs : List Char) :
    parseVal (fuel + 1) ('-' :: cs)
      = (parseNatNum cs).map (fun p => (Json.num (-(p.1 : Int)), p.2)) := by
  rw [parseVal.eq_def]
  dsimp only
  simp [lbrace]

theorem digit_ne_starts (c : Char) (hc : isDigitChar c = true) :
    c ≠ '"' ∧ c ≠ 'n' ∧ c ≠ 't' ∧ c ≠ 'f' ∧ c ≠ '[' ∧ c ≠ lbrace ∧ c ≠ '-' := by
  refine ⟨?_, ?_, ?_, ?_, ?_, ?_, ?_⟩
  all_goals intro h
  all_goals subst h
  all_goals exact absurd hc (by decide)

set_option maxHeartbeats 1600000 in
theorem parseVal_digit (fuel : Nat) (c : Char) (cs : List Char) (hc : isDigitChar c = true) :
    parseVal (fuel + 1) (c :: cs)
      = (parseNatNum (c :: cs)).map (fun p => (Json.num (p.1 : Int), p.2)) := by
  obtain ⟨h1, h2, h3, h4, h5, h6, h7⟩ := digit_ne_starts c hc
  rw [parseVal.eq_def]
  dsimp only
  simp [h1, h2, h3, h4, h5, h6, h7, hc]

theorem parseElems_succ (fuel : Nat) (cs : List Char) :
    parseElems (fuel + 1) cs
      = match parseVal fuel cs with
        | none => none
        | some (v, r) =>
          match r with
          | [] => none
          | c :: r2 =>
            if c = ',' then (parseElems fuel r2).map (fun p => (v :: p.1, p.2))
            else if c = ']' then some ([v], r2)
            else none := by
  rw [parseElems.eq_def]

theorem parseFields_quote (fuel : Nat) (cs : List Char) :
    parseFields (fuel + 1) ('"' :: cs)
      = match parseStringBody cs with
        | none => none
        | some (k, r) =>
          match r with
          | [] => none
          | c2 :: r2 =>
            if c2 = ':' then
              match parseVal fuel r2 with
              | none => none
              | some (v, r3) =>
                match r3 with
                | [] => none
                | c3 :: r4 =>
                  if c3 = ',' then
                    (parseFields fuel r4).map (fun p => ((⟨k⟩, v) :: p.1, p.2))
                  else if c3 = rbrace then some ([(⟨k⟩, v)], r4)
                  else none
            else none := by
  rw [parseFields.eq_def]
  dsimp only
  simp

theorem parse_stringify_main : ∀ fuel : Nat,
    (∀ (v : Json) (rest : List Char),
      (stringifyChars v).length ≤ fuel → noLeadDigit rest →
      parseVal fuel (stringifyChars v ++ rest) = some (v, rest))
  ∧ (∀ (v : Json) (vs : List Json) (rest : List Char),
      (stringifyChars v).length + (elemsRest vs).length ≤ fuel →
      parseElems fuel (stringifyChars v ++ (elemsRest vs ++ rest)) = some (v :: vs, rest))
  ∧ (∀ (k : String) (v : Json) (fs : List (String × Json)) (rest : List Char),
      1 + (escapeList k.data).length + 2 + (stringifyChars v).length
          + (fieldsRest fs).length ≤ fuel →
      parseFields fuel
          ('"' :: (escapeList k.data
            ++ ('"' :: ':' :: (stringifyChars v ++ (fieldsRest fs ++ rest)))))
        = some ((k, v) :: fs, rest)) := by
  intro fuel
  induction fuel with
  | zero =>
    refine ⟨?_, ?_, ?_⟩
    · intro v rest hlen _
      have := stringify_ne_nil v
      have : 1 ≤ (stringifyChars v).length := List.length_pos.mpr this
      omega
    · intro v vs rest hlen
      have := stringify_ne_nil v
      have : 1 ≤ (stringifyChars v).length := List.length_pos.mpr this
      omega
    · intro k v fs rest hlen
      omega
  | succ fuel ih =>
    obtain ⟨ihV, ihE, ihF⟩ := ih
    refine ⟨?_, ?_, ?_⟩
    · -- parseVal round trip
      intro v rest hlen hnl
      cases v with
      | null => rw [stringify_null]; exact parseVal_null fuel rest
      | bool b =>
        cases b
        · rw [stringify_false]; exact parseVal_false fuel rest
        · rw [stringify_true]; exact parseVal_true fuel rest
      | num n =>
        rw [stringify_num]
        by_cases hneg : n < 0
        · rw [intToChars, if_pos hneg]
          simp only [List.cons_append]
          rw [parseVal_neg, parseNatNum_spec _ rest hnl]
          simp only [Option.map_some']
          rw [show -(((-n).toNat : Int)) = n by omega]
        · rw [intToChars, if_neg hneg]
          cases heq : natToChars n.toNat with
          | nil => exact absurd heq (natToChars_ne_nil _)
          | cons c t =>
            have hc : isDigitChar c = true :=
              natToChars_digits n.toNat c (heq ▸ List.mem_cons_self c t)
            simp only [List.cons_append]
            rw [parseVal_digit fuel c (t ++ rest) hc]
            have : c :: (t ++ rest) = natToChars n.toNat ++ rest := by rw [heq]; rfl
            rw [this, parseNatNum_spec _ rest hnl]
            simp only [Option.map_some']
            rw [show ((n.toNat : Nat) : Int) = n by omega]
      | str s =>
        rw [stringify_str]
        simp only [List.cons_append, List.append_assoc, List.cons_append, List.nil_append]
        rw [parseVal_quote, parseStringBody_escape]
        rfl
      | arr l =>
        cases l with
        | nil =>
          rw [stringify_arr_nil]
          simp only [List.cons_append, List.nil_append]
          rw [parseVal_lbrack]
          rfl
        | cons v vs =>
          rw [stringify_arr_cons] at hlen ⊢
          simp only [List.cons_append, List.append_assoc]
          rw [parseVal_lbrack]
          rw [if_neg (by exact fun h => stringify_head_ne_rbrack v _ h)]
          rw [ihE v vs rest (by
            simp only [List.length_cons, List.length_append] at hlen
            omega)]
          rfl
      | obj l =>
        match l with
        | [] =>
          rw [stringify_obj_nil]
          simp only [List.cons_append, List.nil_append]
          rw [parseVal_lbrace]
          rfl
        | (k, v) :: fs =>
          rw [stringify_obj_cons] at hlen ⊢
          simp only [List.cons_append, List.append_assoc]
          rw [parseVal_lbrace]
          rw [if_neg (by
            simp only [List.head?_cons]
            decide)]
          have hlen' : 1 + (escapeList k.data).length + 2 + (stringifyChars v).length
              + (fieldsRest fs).length ≤ fuel := by
            simp only [List.length_cons, List.length_append] at hlen
            omega
          have := ihF k v fs rest hlen'
          simp only [List.append_assoc] at this
          rw [this]
          rfl
    · -- parseElems round trip
      intro v vs rest hlen
      rw [parseElems_succ]
      have hv : (stringifyChars v).length ≤ fuel := by
        have := elemsRest_length_pos vs
        omega
      rw [ihV v (elemsRest vs ++ rest) hv (noLeadDigit_elemsRest vs rest)]
      cases vs with
      | nil =>
        rw [elemsRest_nil]
        simp only [List.cons_append, List.nil_append]
        simp
      | cons v2 vs' =>
        rw [elemsRest_cons] at hlen ⊢
        simp only [List.cons_append, List.append_assoc]
        have hlen2 : (stringifyChars v2).length + (elemsRest vs').length ≤ fuel := by
          simp only [List.length_cons, List.length_append] at hlen
          omega
        have := ihE v2 vs' rest hlen2
        simp only [List.append_assoc] at this
        simp only [this]
        simp
    · -- parseFields round trip
      intro k v fs rest hlen
      rw [parseFields_quote]
      have hsb : parseStringBody (escapeList k.data
          ++ ('"' :: ':' :: (stringifyChars v ++ (fieldsRest fs ++ rest))))
          = some (k.data, ':' :: (stringifyChars v ++ (fieldsRest fs ++ rest))) := by
        have := parseStringBody_escape k.data (':' :: (stringifyChars v ++ (fieldsRest fs ++ rest)))
        simpa using this
      rw [hsb]
      simp only [reduceIte]
      have hv : (stringifyChars v).length ≤ fuel := by
        have := fieldsRest_length_pos fs
        omega
      rw [ihV v (fieldsRest fs ++ rest) hv (noLeadDigit_fieldsRest fs rest)]
      match fs with
      | [] =>
        rw [fieldsRest_nil]
        simp only [List.cons_append, List.nil_append]
        have hne : ¬ (rbrace = ',') := by decide
        rw [if_neg hne, if_pos trivial]
      | (k2, v2) :: fs' =>
        rw [fieldsRest_cons] at hlen ⊢
        simp only [List.cons_append, List.append_assoc]
        have hlen2 : 1 + (escapeList k2.data).length + 2 + (stringifyChars v2).length
            + (fieldsRest fs').length ≤ fuel := by
          simp only [List.length_cons, List.length_append] at hlen
          have := stringify_ne_nil v
          have : 1 ≤ (stringifyChars v).length := List.length_pos.mpr this
          omega
        have := ihF k2 v2 fs' rest hlen2
        simp only [List.append_assoc] at this
        simp only [reduceIte, this]
        simp

theorem getEntry_eq_none_iff {α : Type} (m : List (String × α)) (k : String) :
    getEntry m k = none ↔ k ∉ m.map Prod.fst := by
  induction m with
  | nil => simp [getEntry]
  | cons a t ih =>
    obtain ⟨k', v⟩ := a
    by_cases h : k' = k
    · subst h
      simp [getEntry]
    · simp only [getEntry, if_neg h, List.map_cons, List.mem_cons, ih]
      constructor
      · intro hn hor
        rcases hor with hor | hor
        · exact h hor.symm
        · exact hn hor
      · intro hn hm
        exact hn (Or.inr hm)

theorem setEntry_append_of_getEntry_none {α : Type} (m : List (String × α)) (k : String)
    (v : α) (h : getEntry m k = none) : setEntry m k v = m ++ [(k, v)] := by
  induction m with
  | nil => rfl
  | cons a t ih =>
    obtain ⟨k', w⟩ := a
    simp only [getEntry] at h
    by_cases hk : k' = k
    · rw [if_pos hk] at h
      cases h
    · rw [if_neg hk] at h
      simp [setEntry, hk, ih h]

theorem getEntry_setEntry_self {α : Type} (m : List (String × α)) (k : String) (v : α) :
    getEntry (setEntry m k v) k = some v := by
  induction m with
  | nil => simp [setEntry, getEntry]
  | cons a t ih =>
    obtain ⟨k', w⟩ := a
    by_cases hk : k' = k
    · simp [setEntry, getEntry, hk]
    · simp [setEntry, getEntry, hk, ih]

theorem delEntry_sublist {α : Type} (m : List (String × α)) (k : String) :
    List.Sublist (delEntry m k) m := by
  induction m with
  | nil => simp [delEntry]
  | cons a t ih =>
    obtain ⟨k', v⟩ := a
    by_cases h : k' = k
    · simp only [delEntry, if_pos h]
      exact ih.cons _
    · simp only [delEntry, if_neg h]
      exact ih.cons₂ _

theorem getEntry_delEntry_self {α : Type} (m : List (String × α)) (k : String) :
    getEntry (delEntry m k) k = none := by
  induction m with
  | nil => rfl
  | cons a t ih =>
    obtain ⟨k', v⟩ := a
    by_cases h : k' = k
    · simp [delEntry, h, ih]
    · simp [delEntry, getEntry, h, ih]

theorem getEntry_mem_keys {α : Type} (m : List (String × α)) (k : String) (v : α)
    (h : getEntry m k = some v) : k ∈ m.map Prod.fst := by
  by_contra hmem
  rw [← getEntry_eq_none_iff] at hmem
  rw [hmem] at h
  cases h

theorem hasKey_false_iff {α : Type} (m : List (String × α)) (k : String) :
    hasKey m k = false ↔ getEntry m k = none := by
  cases h : getEntry m k <;> simp [hasKey, h]

theorem hasKey_true_iff {α : Type} (m : List (String × α)) (k : String) :
    hasKey m k = true ↔ ∃ v, getEntry m k = some v := by
  cases h : getEntry m k <;> simp [hasKey, h]

theorem filter_out_append_self (l : List String) (c : String) (h : c ∉ l) :
    (l ++ [c]).filter (fun k => decide (k ≠ c)) = l := by
  rw [List.filter_append]
  have h1 : l.filter (fun k => decide (k ≠ c)) = l := by
    apply List.filter_eq_self.mpr
    intro a ha
    simp only [ne_eq, decide_eq_true_eq]
    exact fun he => h (he ▸ ha)
  have h2 : ([c] : List String).filter (fun k => decide (k ≠ c)) = [] := by simp
  rw [h1, h2, List.append_nil]

theorem muxSendAll_of_ne_nil (msgs : List String) :
    ∀ q : List String, q ≠ [] → muxSendAll ⟨q⟩ msgs = (⟨q ++ msgs⟩, 0) := by
  induction msgs with
  | nil =>
    intro q hq
    simp [muxSendAll]
  | cons m rest ih =>
    intro q hq
    match q, hq with
    | a :: t, _ =>
      simp only [muxSendAll, muxSend]
      rw [ih ((a :: t) ++ [m]) (by simp)]
      simp

theorem parseJson_stringify (v : Json) : parseJson (stringifyJson v) = some v := by
  have hmain := (parse_stringify_main ((stringifyChars v).length + 1)).1 v []
    (by omega) (by intro c hc; simp at hc)
  rw [List.append_nil] at hmain
  unfold parseJson stringifyJson
  simp only [hmain]

theorem stringifyChars_injective (a b : Json) (h : stringifyChars a = stringifyChars b) :
    a = b := by
  have ha := parseJson_stringify a
  have hb := parseJson_stringify b
  unfold stringifyJson at ha hb
  have : (⟨stringifyChars a⟩ : String) = ⟨stringifyChars b⟩ := by rw [h]
  rw [this] at ha
  rw [ha] at hb
  exact Option.some_inj.mp hb

theorem parseJson_of_data_eq (s : String) (v : Json) (h : s.data = stringifyChars v) :
    parseJson s = some v := by
  unfold parseJson
  rw [h]
  have hmain := (parse_stringify_main ((stringifyChars v).length + 1)).1 v []
    (by omega) (by intro c hc; simp at hc)
  rw [List.append_nil] at hmain
  simp only [hmain]

theorem request_data (req rpcId method : String) (args : List Json)
    (h1 : JsonSafeStr req) (h2 : JsonSafeStr rpcId) (h3 : JsonSafeStr method) :
    (MessageFactory.request req rpcId method args).data
      = stringifyChars (Json.obj [("type", Json.num 1), ("id", Json.str req),
          ("proxyId", Json.str rpcId), ("method", Json.str method),
          ("args", Json.arr args)]) := by
  rw [stringify_obj_cons, fieldsRest_cons, fieldsRest_cons, fieldsRest_cons, fieldsRest_cons,
    fieldsRest_nil,
    stringify_str, stringify_str, stringify_str,
    escapeList_safe req.data h1, escapeList_safe rpcId.data h2, escapeList_safe method.data h3,
    show escapeList "type".data = ['t', 'y', 'p', 'e'] from rfl,
    show escapeList "id".data = ['i', 'd'] from rfl,
    show escapeList "proxyId".data = ['p', 'r', 'o', 'x', 'y', 'I', 'd'] from rfl,
    show escapeList "method".data = ['m', 'e', 't', 'h', 'o', 'd'] from rfl,
    show escapeList "args".data = ['a', 'r', 'g', 's'] from rfl,
    show stringifyChars (Json.num 1) = ['1'] from rfl]
  unfold MessageFactory.request
  simp only [String.data_append,
    show (stringifyJson (Json.arr args)).data = stringifyChars (Json.arr args) from rfl,
    show ("\x7b\"type\":1,\"id\":\"" : String).data
      = [lbrace, '"', 't', 'y', 'p', 'e', '"', ':', '1', ',', '"', 'i', 'd', '"', ':', '"']
      from rfl,
    show ("\",\"proxyId\":\"" : String).data
      = ['"', ',', '"', 'p', 'r', 'o', 'x', 'y', 'I', 'd', '"', ':', '"'] from rfl,
    show ("\",\"method\":\"" : String).data
      = ['"', ',', '"', 'm', 'e', 't', 'h', 'o', 'd', '"', ':', '"'] from rfl,
    show ("\",\"args\":" : String).data = ['"', ',', '"', 'a', 'r', 'g', 's', '"', ':'] from rfl,
    show ("\x7d" : String).data = [rbrace] from rfl]
  simp [List.append_assoc]
  all_goals decide

theorem replyOK_none_data (req : String) (h1 : JsonSafeStr req) :
    (MessageFactory.replyOK req none).data
      = stringifyChars (Json.obj [("type", Json.num 2), ("id", Json.str req)]) := by
  rw [stringify_obj_cons, fieldsRest_cons, fieldsRest_nil, stringify_str,
    escapeList_safe req.data h1,
    show escapeList "type".data = ['t', 'y', 'p', 'e'] from rfl,
    show escapeList "id".data = ['i', 'd'] from rfl,
    show stringifyChars (Json.num 2) = ['2'] from rfl]
  show ("\x7b\"type\":2,\"id\":\"" ++ req ++ "\"\x7d").data = _
  simp only [String.data_append,
    show ("\x7b\"type\":2,\"id\":\"" : String).data
      = [lbrace, '"', 't', 'y', 'p', 'e', '"', ':', '2', ',', '"', 'i', 'd', '"', ':', '"']
      from rfl,
    show ("\"\x7d" : String).data = ['"', rbrace] from rfl]
  simp [List.append_assoc]
  all_goals decide

theorem replyOK_some_data (req : String) (v : Json) (h1 : JsonSafeStr req) :
    (MessageFactory.replyOK req (some v)).data
      = stringifyChars (Json.obj [("type", Json.num 2), ("id", Json.str req), ("res", v)]) := by
  rw [stringify_obj_cons, fieldsRest_cons, fieldsRest_cons, fieldsRest_nil, stringify_str,
    escapeList_safe req.data h1,
    show escapeList "type".data = ['t', 'y', 'p', 'e'] from rfl,
    show escapeList "id".data = ['i', 'd'] from rfl,
    show escapeList "res".data = ['r', 'e', 's'] from rfl,
    show stringifyChars (Json.num 2) = ['2'] from rfl]
  show ("\x7b\"type\":2,\"id\":\"" ++ req ++ "\",\"res\":" ++ stringifyJson v ++ "\x7d").data = _
  simp only [String.data_append,
    show (stringifyJson v).data = stringifyChars v from rfl,
    show ("\x7b\"type\":2,\"id\":\"" : String).data
      = [lbrace, '"', 't', 'y', 'p', 'e', '"', ':', '2', ',', '"', 'i', 'd', '"', ':', '"']
      from rfl,
    show ("\",\"res\":" : String).data = ['"', ',', '"', 'r', 'e', 's', '"', ':'] from rfl,
    show ("\x7d" : String).data = [rbrace] from rfl]
  simp [List.append_assoc]
  all_goals decide

theorem replyErr_jsError_data (req : String) (e : JsError) (h1 : JsonSafeStr req) :
    (MessageFactory.replyErr req (ErrArg.jsError e)).data
      = stringifyChars (Json.obj [("type", Json.num 3), ("id", Json.str req),
          ("err", transformErrorForSerialization e)]) := by
  rw [stringify_obj_cons, fieldsRest_cons, fieldsRest_cons, fieldsRest_nil, stringify_str,
    escapeList_safe req.data h1,
    show escapeList "type".data = ['t', 'y', 'p', 'e'] from rfl,
    show escapeList "id".data = ['i', 'd'] from rfl,
    show escapeList "err".data = ['e', 'r', 'r'] from rfl,
    show stringifyChars (Json.num 3) = ['3'] from rfl]
  show ("\x7b\"type\":3,\"id\":\"" ++ req ++ "\",\"err\":"
    ++ stringifyJson (transformErrorForSerialization e) ++ "\x7d").data = _
  simp only [String.data_append,
    show (stringifyJson (transformErrorForSerialization e)).data
      = stringifyChars (transformErrorForSerialization e) from rfl,
    show ("\x7b\"type\":3,\"id\":\"" : String).data
      = [lbrace, '"', 't', 'y', 'p', 'e', '"', ':', '3', ',', '"', 'i', 'd', '"', ':', '"']
      from rfl,
    show ("\",\"err\":" : String).data = ['"', ',', '"', 'e', 'r', 'r', '"', ':'] from rfl,
    show ("\x7d" : String).data = [rbrace] from rfl]
  simp [List.append_assoc]
  all_goals decide

theorem replyErr_value_data (req : String) (v : Json) (h1 : JsonSafeStr req) :
    (MessageFactory.replyErr req (ErrArg.value v)).data
      = stringifyChars (Json.obj [("type", Json.num 3), ("id", Json.str req),
          ("err", Json.null)]) := by
  rw [stringify_obj_cons, fieldsRest_cons, fieldsRest_cons, fieldsRest_nil, stringify_str,
    escapeList_safe req.data h1,
    show escapeList "type".data = ['t', 'y', 'p', 'e'] from rfl,
    show escapeList "id".data = ['i', 'd'] from rfl,
    show escapeList "err".data = ['e', 'r', 'r'] from rfl,
    show stringifyChars (Json.num 3) = ['3'] from rfl,
    stringify_null]
  show ("\x7b\"type\":3,\"id\":\"" ++ req ++ "\",\"err\":null\x7d").data = _
  simp only [String.data_append,
    show ("\x7b\"type\":3,\"id\":\"" : String).data
      = [lbrace, '"', 't', 'y', 'p', 'e', '"', ':', '3', ',', '"', 'i', 'd', '"', ':', '"']
      from rfl,
    show ("\",\"err\":null\x7d" : String).data
      = ['"', ',', '"', 'e', 'r', 'r', '"', ':', 'n', 'u', 'l', 'l', rbrace] from rfl]
  simp [List.append_assoc]
  all_goals decide

theorem parseJson_request (req rpcId method : String) (args : List Json)
    (h1 : JsonSafeStr req) (h2 : JsonSafeStr rpcId) (h3 : JsonSafeStr method) :
    parseJson (MessageFactory.request req rpcId method args)
      = some (Json.obj [("type", Json.num 1), ("id", Json.str req),
          ("proxyId", Json.str rpcId), ("method", Json.str method),
          ("args", Json.arr args)]) :=
  parseJson_of_data_eq _ _ (request_data req rpcId method args h1 h2 h3)

theorem parseJson_replyOK_none (req : String) (h1 : JsonSafeStr req) :
    parseJson (MessageFactory.replyOK req none)
      = some (Json.obj [("type", Json.num 2), ("id", Json.str req)]) :=
  parseJson_of_data_eq _ _ (replyOK_none_data req h1)

theorem parseJson_replyOK_some (req : String) (v : Json) (h1 : JsonSafeStr req) :
    parseJson (MessageFactory.replyOK req (some v))
      = some (Json.obj [("type", Json.num 2), ("id", Json.str req), ("res", v)]) :=
  parseJson_of_data_eq _ _ (replyOK_some_data req v h1)

theorem parseJson_replyErr_jsError (req : String) (e : JsError) (h1 : JsonSafeStr req) :
    parseJson (MessageFactory.replyErr req (ErrArg.jsError e))
      = some (Json.obj [("type", Json.num 3), ("id", Json.str req),
          ("err", transformErrorForSerialization e)]) :=
  parseJson_of_data_eq _ _ (replyErr_jsError_data req e h1)

theorem parseJson_replyErr_value (req : String) (v : Json) (h1 : JsonSafeStr req) :
    parseJson (MessageFactory.replyErr req (ErrArg.value v))
      = some (Json.obj [("type", Json.num 3), ("id", Json.str req), ("err", Json.null)]) :=
  parseJson_of_data_eq _ _ (replyErr_value_data req v h1)

/-- C1: disposing the protocol instance settles every outstanding Deferred
Result in the pending-reply table with a cancellation failure, and every
`remoteCall` invoked after disposal rejects immediately with a cancellation
error (name and message `Canceled`), without registering an entry in the
outstanding-call table and without handing anything to the multiplexer. -/
theorem C1_dispose_cancels_and_blocks (s : RPCState) (proxyId methodName : String)
    (args : List Json) :
    (dispose s).isDisposed = true
    ∧ (∀ k p, (k, p) ∈ s.pendingRPCReplies → p = LPState.pending →
        (k, LPState.canceled) ∈ (dispose s).pendingRPCReplies)
    ∧ canceled.name = "Canceled" ∧ canceled.message = "Canceled"
    ∧ (∀ s' : RPCState, s'.isDisposed = true →
        remoteCall s' proxyId methodName args
          = (s', RemoteCallResult.rejected canceled, [])) := by
  refine ⟨rfl, ?_, rfl, rfl, ?_⟩
  · intro k p hm hp
    subst hp
    have := List.mem_map_of_mem (fun e : String × LPState => (e.1, e.2.cancel)) hm
    simpa [dispose] using this
  · intro s' h
    simp [remoteCall, h]

/-- Witness for C1: a protocol state with two outstanding pending calls; both
are cancel-settled by disposal and a later `remoteCall` rejects with the
cancellation error without touching the state or the multiplexer. -/
theorem C1_dispose_cancels_and_blocks_witness :
    ("1", LPState.canceled) ∈ (dispose
        ⟨false, [], 2, [], [("1", LPState.pending), ("2", LPState.pending)]⟩).pendingRPCReplies
    ∧ ("2", LPState.canceled) ∈ (dispose
        ⟨false, [], 2, [], [("1", LPState.pending), ("2", LPState.pending)]⟩).pendingRPCReplies
    ∧ remoteCall (dispose ⟨false, [], 2, [], [("1", LPState.pending), ("2", LPState.pending)]⟩)
          "mService" "$greet" []
        = (dispose ⟨false, [], 2, [], [("1", LPState.pending), ("2", LPState.pending)]⟩,
           RemoteCallResult.rejected canceled, []) := by
  refine ⟨?_, ?_, ?_⟩
  · exact (C1_dispose_cancels_and_blocks
        ⟨false, [], 2, [], [("1", LPState.pending), ("2", LPState.pending)]⟩
        "mService" "$greet" []).2.1 "1" LPState.pending (List.Mem.head _) rfl
  · exact (C1_dispose_cancels_and_blocks
        ⟨false, [], 2, [], [("1", LPState.pending), ("2", LPState.pending)]⟩
        "mService" "$greet" []).2.1 "2" LPState.pending
      (List.Mem.tail _ (List.Mem.head _)) rfl
  · exact (C1_dispose_cancels_and_blocks
        ⟨false, [], 2, [], [("1", LPState.pending), ("2", LPState.pending)]⟩
        "mService" "$greet" []).2.2.2.2 _ rfl

/-- C2: for every sequence of messages handed to the multiplexer's `send`
synchronously within one scheduling turn (starting from an idle queue),
exactly one flush is scheduled — never synchronously within `send` itself,
which performs no transport send — and the flush performs the single
`connection.send` with exactly those messages in submission order. -/
theorem C2_single_batched_send (msgs : List String) (h : msgs ≠ []) :
    muxSendAll ⟨[]⟩ msgs = (⟨msgs⟩, 1)
    ∧ sendAccumulated (muxSendAll ⟨[]⟩ msgs).1 = (⟨[]⟩, msgs) := by
  have h1 : muxSendAll ⟨[]⟩ msgs = (⟨msgs⟩, 1) := by
    match msgs, h with
    | m :: rest, _ =>
      simp only [muxSendAll, muxSend]
      rw [show (⟨[] ++ [m]⟩ : MuxState) = ⟨[m]⟩ from rfl,
        muxSendAll_of_ne_nil rest [m] (by simp)]
      simp
  exact ⟨h1, by rw [h1]; rfl⟩

/-- Witness for C2: two messages submitted in one turn are flushed by one
scheduled send as the batch `["a", "b"]`. -/
theorem C2_single_batched_send_witness :
    muxSendAll ⟨[]⟩ ["a", "b"] = (⟨["a", "b"]⟩, 1)
    ∧ sendAccumulated (muxSendAll ⟨[]⟩ ["a", "b"]).1 = (⟨[]⟩, ["a", "b"]) :=
  C2_single_batched_send ["a", "b"] (by decide)

/-- C8: a Reply or ReplyErr whose call id has no entry in the outstanding-call
table is ignored: no error, no state change, no settlement, nothing sent. -/
theorem C8_stray_replies_ignored (s : RPCState) (msg : Json)
    (h : getEntry s.pendingRPCReplies (strD (jsField msg "id")) = none) :
    receiveReply s msg = (s, none) ∧ receiveReplyErr s msg = (s, none) := by
  constructor
  · simp [receiveReply, h]
  · simp [receiveReplyErr, h]

/-- Witness for C8: a reply for call id 9 arriving at a session with an empty
outstanding-call table is dropped without any effect. -/
theorem C8_stray_replies_ignored_witness :
    receiveReply ⟨false, [], 0, [], []⟩ (Json.obj [("id", Json.str "9")])
        = (⟨false, [], 0, [], []⟩, none)
    ∧ receiveReplyErr ⟨false, [], 0, [], []⟩ (Json.obj [("id", Json.str "9")])
        = (⟨false, [], 0, [], []⟩, none) :=
  C8_stray_replies_ignored ⟨false, [], 0, [], []⟩ (Json.obj [("id", Json.str "9")]) rfl

/-- C10: on a synthesized proxy, accessing any property whose name does not
start with `$` yields `undefined` and triggers no remote call and no send;
`$`-prefixed names are bound to a function that routes through
`remoteCall`. -/
theorem C10_proxy_dollar_convention (proxyId name : String)
    (target : List (String × ProxyMember))
    (hReach : ∀ k ∈ target.map Prod.fst, startsWithDollar k = true) :
    (startsWithDollar name = false → proxyGet proxyId target name = (target, none))
    ∧ (startsWithDollar name = true → getEntry target name = none →
        proxyGet proxyId target name
          = (setEntry target name (ProxyMember.remoteMethod proxyId name),
             some (ProxyMember.remoteMethod proxyId name)))
    ∧ (∀ s args, invokeProxyMember (ProxyMember.remoteMethod proxyId name) s args
        = remoteCall s proxyId name args) := by
  refine ⟨?_, ?_, fun s args => rfl⟩
  · intro hnd
    have hnone : getEntry target name = none := by
      rw [getEntry_eq_none_iff]
      intro hm
      simp [hReach name hm] at hnd
    simp [proxyGet, hnone, hnd]
  · intro hd hnone
    simp [proxyGet, hnone, hd]

/-- Witness for C10: on a fresh proxy target, `foo` yields `undefined` while
`$greet` gets bound to the forwarding function. -/
theorem C10_proxy_dollar_convention_witness :
    proxyGet "mService" [] "foo" = ([], none)
    ∧ (proxyGet "mService" [] "$greet").2
        = some (ProxyMember.remoteMethod "mService" "$greet") := by
  constructor
  · exact (C10_proxy_dollar_convention "mService" "foo" [] (by simp)).1 rfl
  · rw [(C10_proxy_dollar_convention "mService" "$greet" [] (by simp)).2.1 rfl rfl]

theorem handlerSettled_sends (s : RPCState) (callId : String) (o : HandlerOutcome) :
    (handlerSettled s callId o).2
      = [match o with
         | .resolved v => MessageFactory.replyOK callId v
         | .rejected e => MessageFactory.replyErr callId e] := by
  cases o <;> rfl

theorem handlerSettled_state (s : RPCState) (callId : String) (o : HandlerOutcome) :
    (handlerSettled s callId o).1
      = { s with invokedHandlers :=
            s.invokedHandlers.filter (fun k => decide (k ≠ callId)) } := by
  cases o <;> rfl

theorem receiveRequest_eq (s : RPCState) (callId proxyId methodName : String)
    (args : List Json) :
    receiveRequest s callId proxyId methodName args
      = handlerSettled
          { s with invokedHandlers :=
              if callId ∈ s.invokedHandlers then s.invokedHandlers
              else s.invokedHandlers ++ [callId] }
          callId (invokeHandler s.locals proxyId methodName args).1 := rfl

/-- C3: a Request that cannot be routed is answered with a ReplyErr under the
request's call id and no actor method is invoked: an unregistered `proxyId`
produces the error `Unknown actor <id>`, and a registered actor without a
callable member of the requested name produces
`Unknown method <method> on actor <id>`. -/
theorem C3_unroutable_requests (s : RPCState) (callId proxyId methodName : String)
    (args : List Json) :
    (getEntry s.locals proxyId = none →
      (receiveRequest s callId proxyId methodName args).2
          = [MessageFactory.replyErr callId
              (ErrArg.jsError (mkError ("Unknown actor " ++ proxyId)))]
        ∧ (receiveRequestStart s callId proxyId methodName args).2.2 = none)
    ∧ (∀ actor, getEntry s.locals proxyId = some actor →
        (∀ f, getEntry actor methodName ≠ some (Member.method f)) →
        (receiveRequest s callId proxyId methodName args).2
            = [MessageFactory.replyErr callId (ErrArg.jsError (mkError
                ("Unknown method " ++ methodName ++ " on actor " ++ proxyId)))]
          ∧ (receiveRequestStart s callId proxyId methodName args).2.2 = none) := by
  constructor
  · intro h
    constructor
    · simp [receiveRequest, receiveRequestStart, invokeHandler, doInvokeHandler,
        handlerSettled, h]
    · simp [receiveRequestStart, invokeHandler, doInvokeHandler, h]
  · intro actor hactor hm
    cases hE : getEntry actor methodName with
    | none =>
      constructor
      · simp [receiveRequest, receiveRequestStart, invokeHandler, doInvokeHandler,
          handlerSettled, hactor, hE]
      · simp [receiveRequestStart, invokeHandler, doInvokeHandler, hactor, hE]
    | some m =>
      cases m with
      | method f => exact absurd hE (hm f)
      | plain v =>
        constructor
        · simp [receiveRequest, receiveRequestStart, invokeHandler, doInvokeHandler,
            handlerSettled, hactor, hE]
        · simp [receiveRequestStart, invokeHandler, doInvokeHandler, hactor, hE]

/-- Witness for C3: a session exposing only actor `mA` with method `$m`
answers a request for actor `mB` with `Unknown actor mB` and a request for
`mA.$nope` with `Unknown method $nope on actor mA`, invoking nothing. -/
theorem C3_unroutable_requests_witness :
    (receiveRequest
        ⟨false, [("mA", [("$m", Member.method fun _ => MethodResult.value none)])], 0, [], []⟩
        "7" "mB" "$m" []).2
      = [MessageFactory.replyErr "7" (ErrArg.jsError (mkError ("Unknown actor " ++ "mB")))]
    ∧ (receiveRequest
        ⟨false, [("mA", [("$m", Member.method fun _ => MethodResult.value none)])], 0, [], []⟩
        "8" "mA" "$nope" []).2
      = [MessageFactory.replyErr "8" (ErrArg.jsError (mkError
          ("Unknown method " ++ "$nope" ++ " on actor " ++ "mA")))] := by
  constructor
  · exact ((C3_unroutable_requests
      ⟨false, [("mA", [("$m", Member.method fun _ => MethodResult.value none)])], 0, [], []⟩
      "7" "mB" "$m" []).1 rfl).1
  · exact ((C3_unroutable_requests
      ⟨false, [("mA", [("$m", Member.method fun _ => MethodResult.value none)])], 0, [], []⟩
      "8" "mA" "$nope" []).2
      [("$m", Member.method fun _ => MethodResult.value none)] rfl
      (fun f h => by
        rw [show getEntry [("$m", Member.method fun _ => MethodResult.value none)] "$nope"
            = none from rfl] at h
        cases h)).1

/-- C4: every received Request is answered by exactly one reply message —
Reply on success, ReplyErr on failure — carrying the original call id; the
transient in-flight entry is added and then removed regardless of outcome;
and an actor method that throws synchronously produces exactly the same
outbound traffic as one whose promise rejects with the same error, so the
remote caller cannot distinguish the two. -/
theorem C4_one_reply_per_request (s : RPCState) (callId proxyId methodName : String)
    (args : List Json) (hfresh : callId ∉ s.invokedHandlers) :
    ((receiveRequest s callId proxyId methodName args).2.length = 1)
    ∧ ((∃ v, (receiveRequest s callId proxyId methodName args).2
          = [MessageFactory.replyOK callId v])
       ∨ (∃ e, (receiveRequest s callId proxyId methodName args).2
          = [MessageFactory.replyErr callId e]))
    ∧ callId ∈ (receiveRequestStart s callId proxyId methodName args).1.invokedHandlers
    ∧ (receiveRequest s callId proxyId methodName args).1.invokedHandlers = s.invokedHandlers
    ∧ (∀ f g e, f args = MethodResult.throws e →
        g args = MethodResult.promise (HandlerOutcome.rejected e) →
        (receiveRequest { s with locals := (setEntry s.locals proxyId
            [(methodName, Member.method f)]) } callId proxyId methodName args).2
          = (receiveRequest { s with locals := (setEntry s.locals proxyId
              [(methodName, Member.method g)]) } callId proxyId methodName args).2) := by
  refine ⟨?_, ?_, ?_, ?_, ?_⟩
  · rw [receiveRequest_eq, handlerSettled_sends]
    rfl
  · rw [receiveRequest_eq, handlerSettled_sends]
    cases (invokeHandler s.locals proxyId methodName args).1 with
    | resolved v => exact Or.inl ⟨v, rfl⟩
    | rejected e => exact Or.inr ⟨e, rfl⟩
  · simp [receiveRequestStart, if_neg hfresh]
  · rw [receiveRequest_eq, handlerSettled_state]
    simp only [if_neg hfresh]
    exact filter_out_append_self s.invokedHandlers callId hfresh
  · intro f g e hf hg
    have hA : (invokeHandler (setEntry s.locals proxyId [(methodName, Member.method f)])
        proxyId methodName args).1 = HandlerOutcome.rejected e := by
      simp [invokeHandler, doInvokeHandler, getEntry_setEntry_self, getEntry, hf]
    have hB : (invokeHandler (setEntry s.locals proxyId [(methodName, Member.method g)])
        proxyId methodName args).1 = HandlerOutcome.rejected e := by
      simp [invokeHandler, doInvokeHandler, getEntry_setEntry_self, getEntry, hg]
    rw [receiveRequest_eq, receiveRequest_eq]
    rw [handlerSettled_sends, handlerSettled_sends]
    simp only [hA, hB]

/-- Witness for C4 at a session whose actor method throws synchronously: one
ReplyErr is produced, the in-flight entry is purged, and the traffic matches
the promise-rejection variant of the same error. -/
theorem C4_one_reply_per_request_witness :
    ((receiveRequest ⟨false, [], 0, [], []⟩ "7" "mA" "$m" []).2.length = 1)
    ∧ ((receiveRequest ⟨false, [], 0, [], []⟩ "7" "mA" "$m" []).1.invokedHandlers = [])
    ∧ (receiveRequest { (⟨false, [], 0, [], []⟩ : RPCState) with locals := (setEntry [] "mA"
          [("$m", Member.method fun _ => MethodResult.throws (ErrArg.value Json.null))]) }
        "7" "mA" "$m" []).2
      = (receiveRequest { (⟨false, [], 0, [], []⟩ : RPCState) with locals := (setEntry [] "mA"
          [("$m", Member.method fun _ =>
            MethodResult.promise (HandlerOutcome.rejected (ErrArg.value Json.null)))]) }
        "7" "mA" "$m" []).2 := by
  have h := C4_one_reply_per_request ⟨false, [], 0, [], []⟩ "7" "mA" "$m" [] (by simp)
  exact ⟨h.1, h.2.2.2.1, h.2.2.2.2 _ _ (ErrArg.value Json.null) rfl rfl⟩

theorem GoodIds_delEntry (s : RPCState) (hg : GoodIds s) (cid : String) :
    GoodIds { s with pendingRPCReplies := delEntry s.pendingRPCReplies cid } := by
  have hsub : List.Sublist ((delEntry s.pendingRPCReplies cid).map Prod.fst)
      (s.pendingRPCReplies.map Prod.fst) := (delEntry_sublist _ _).map _
  exact ⟨hg.1.sublist hsub, fun k hk => hg.2 k (hsub.subset hk)⟩

/-- C9: the outstanding-call table holds at most one entry per call id (its
keys stay pairwise distinct under `remoteCall`, `receiveReply` and
`receiveReplyErr`), each entry is removed exactly once — the first matching
Reply or ReplyErr removes it and a second delivery of the same id is a
no-op — and every `remoteCall` allocates a fresh id from the strictly
increasing counter rendered as its decimal string, so ids are never reused
within a session. -/
theorem C9_call_table_invariants (s : RPCState) (hg : GoodIds s)
    (hnd : s.isDisposed = false) (proxyId methodName : String) (args : List Json) :
    (remoteCall s proxyId methodName args).2.1
        = RemoteCallResult.pending (natToString (s.lastMessageId + 1))
    ∧ hasKey s.pendingRPCReplies (natToString (s.lastMessageId + 1)) = false
    ∧ (remoteCall s proxyId methodName args).1.lastMessageId = s.lastMessageId + 1
    ∧ GoodIds (remoteCall s proxyId methodName args).1
    ∧ (∀ msg, GoodIds (receiveReply s msg).1 ∧ GoodIds (receiveReplyErr s msg).1)
    ∧ (∀ msg, hasKey s.pendingRPCReplies (strD (jsField msg "id")) = true →
        hasKey (receiveReply s msg).1.pendingRPCReplies (strD (jsField msg "id")) = false
        ∧ receiveReply (receiveReply s msg).1 msg = ((receiveReply s msg).1, none)
        ∧ hasKey (receiveReplyErr s msg).1.pendingRPCReplies (strD (jsField msg "id"))
            = false) := by
  have hfresh : getEntry s.pendingRPCReplies (natToString (s.lastMessageId + 1)) = none := by
    rw [getEntry_eq_none_iff]
    intro hmem
    obtain ⟨n, hn1, hn2, hn3⟩ := hg.2 _ hmem
    have := natToString_injective (s.lastMessageId + 1) n hn3
    omega
  refine ⟨?_, ?_, ?_, ?_, ?_, ?_⟩
  · simp [remoteCall, hnd]
  · rw [hasKey_false_iff]
    exact hfresh
  · simp [remoteCall, hnd]
  · have hset := setEntry_append_of_getEntry_none s.pendingRPCReplies
      (natToString (s.lastMessageId + 1)) LPState.pending hfresh
    have hnotmem : natToString (s.lastMessageId + 1) ∉ s.pendingRPCReplies.map Prod.fst :=
      (getEntry_eq_none_iff _ _).mp hfresh
    constructor
    · simp only [remoteCall, hnd, Bool.false_eq_true, if_false, hset, List.map_append,
        List.map_cons, List.map_nil]
      rw [List.nodup_append]
      exact ⟨hg.1, List.nodup_singleton _, by
        intro a ha hb
        simp only [List.mem_singleton] at hb
        exact hnotmem (hb ▸ ha)⟩
    · intro k hk
      simp only [remoteCall, hnd, Bool.false_eq_true, if_false, hset, List.map_append,
        List.map_cons, List.map_nil, List.mem_append, List.mem_singleton] at hk
      rcases hk with hk | hk
      · obtain ⟨n, hn1, hn2, hn3⟩ := hg.2 k hk
        exact ⟨n, hn1, by simp [remoteCall, hnd]; omega, hn3⟩
      · exact ⟨s.lastMessageId + 1, by omega, by simp [remoteCall, hnd], hk⟩
  · intro msg
    constructor
    · cases hE : getEntry s.pendingRPCReplies (strD (jsField msg "id")) with
      | none => simpa [receiveReply, hE] using hg
      | some p =>
        have := GoodIds_delEntry s hg (strD (jsField msg "id"))
        simpa [receiveReply, hE] using this
    · cases hE : getEntry s.pendingRPCReplies (strD (jsField msg "id")) with
      | none => simpa [receiveReplyErr, hE] using hg
      | some p =>
        have := GoodIds_delEntry s hg (strD (jsField msg "id"))
        simpa [receiveReplyErr, hE] using this
  · intro msg hK
    obtain ⟨p, hE⟩ := (hasKey_true_iff _ _).mp hK
    refine ⟨?_, ?_, ?_⟩
    · simp only [receiveReply, hE]
      rw [hasKey_false_iff]
      exact getEntry_delEntry_self _ _
    · simp [receiveReply, hE, getEntry_delEntry_self]
    · simp only [receiveReplyErr, hE]
      rw [hasKey_false_iff]
      exact getEntry_delEntry_self _ _

/-- Witness for C9 at a session with one outstanding call id 1 and counter 1:
the next call gets the fresh decimal id 2, and the first Reply for id 1
removes the entry while a duplicate Reply is a no-op. -/
theorem C9_call_table_invariants_witness :
    (remoteCall ⟨false, [], 1, [], [("1", LPState.pending)]⟩ "mA" "$m" []).2.1
        = RemoteCallResult.pending (natToString 2)
    ∧ hasKey ([("1", LPState.pending)] : List (String × LPState)) (natToString 2) = false
    ∧ (hasKey (receiveReply ⟨false, [], 1, [], [("1", LPState.pending)]⟩
          (Json.obj [("id", Json.str "1")])).1.pendingRPCReplies
          (strD (jsField (Json.obj [("id", Json.str "1")]) "id")) = false) := by
  have hg : GoodIds ⟨false, [], 1, [], [("1", LPState.pending)]⟩ := by
    constructor
    · simp
    · intro k hk
      simp only [List.map_cons, List.map_nil, List.mem_singleton] at hk
      exact ⟨1, by omega, by decide, by rw [hk]; rfl⟩
  have h := C9_call_table_invariants ⟨false, [], 1, [], [("1", LPState.pending)]⟩ hg rfl
    "mA" "$m" []
  exact ⟨h.1, h.2.1, (h.2.2.2.2.2 (Json.obj [("id", Json.str "1")]) rfl).1⟩

/-- C5 counterexample: the claim says a non-structured error value is passed
through as an opaque value, but `MessageFactory.replyErr` serializes every
non-`Error` value — here the string `"boom"` — as an explicit `null` in the
`err` field, so the opaque value is lost. -/
theorem C5_opaque_not_passed_through :
    decodeField (MessageFactory.replyErr "5" (ErrArg.value (Json.str "boom"))) "err"
        = some Json.null
    ∧ some Json.null ≠ some (Json.str "boom") := by
  constructor
  · rfl
  · intro h
    exact Json.noConfusion (Option.some_inj.mp h)

/-- C5 (amended): encoding a ReplyErr serializes an `Error` instance as the
structured object with fields `$isError: true`, `name`, `message` and
`stack` (the latter being `stacktrace || stack`); every non-`Error` value,
null or absent error serializes to an explicit `null` in the `err` field —
non-`Error` values are not passed through. -/
theorem C5_replyErr_encoding (callId : String) (hsafe : JsonSafeStr callId) (e : JsError)
    (v : Json) :
    decodeField (MessageFactory.replyErr callId (ErrArg.jsError e)) "err"
        = some (Json.obj [("$isError", Json.bool true), ("name", Json.str e.name),
            ("message", Json.str e.message),
            ("stack", Json.str (jsOrString e.stacktrace e.stack))])
    ∧ decodeField (MessageFactory.replyErr callId (ErrArg.value v)) "err" = some Json.null := by
  constructor
  · simp [decodeField, parseJson_replyErr_jsError callId e hsafe, getEntry,
      transformErrorForSerialization]
  · simp [decodeField, parseJson_replyErr_value callId v hsafe, getEntry]

/-- Witness for C5 (amended) at call id 5 with a concrete error and a
concrete opaque value. -/
theorem C5_replyErr_encoding_witness :
    decodeField (MessageFactory.replyErr "5"
        (ErrArg.jsError ⟨"E", "m", "st", none⟩)) "err"
      = some (Json.obj [("$isError", Json.bool true), ("name", Json.str "E"),
          ("message", Json.str "m"), ("stack", Json.str "st")])
    ∧ decodeField (MessageFactory.replyErr "5" (ErrArg.value (Json.num 42))) "err"
      = some Json.null :=
  C5_replyErr_encoding "5" (by unfold JsonSafeStr; decide) ⟨"E", "m", "st", none⟩ (Json.num 42)

/-- C6 counterexample: the claim says the rejected error's stack always
equals the sender's `stack`, but `transformErrorForSerialization` prefers a
truthy `stacktrace` property: an error with `stack = "orig"` and
`stacktrace = "other"` is received with stack `"other"`. -/
theorem C6_stacktrace_overrides_stack :
    (parseJson (MessageFactory.replyErr "1"
        (ErrArg.jsError ⟨"E", "m", "orig", some "other"⟩))).map
        (fun m => (receiveReplyErr ⟨false, [], 1, [], [("1", LPState.pending)]⟩ m).2)
      = some (some ("1", LPState.resolvedErr (some ⟨"E", "m", "other", none⟩)))
    ∧ ("other" : String) ≠ "orig" := by
  constructor
  · rfl
  · decide

/-- C6 (amended): for a structured error whose `stacktrace` property is
absent or falsy, the round trip through `encodeReplyErr` and
`receiveReplyErr` rejects the caller's pending Deferred Result with an error
whose `name`, `message` and `stack` equal the sender's (a truthy
`stacktrace` would replace the stack). -/
theorem C6_error_roundtrip (callId : String) (hsafe : JsonSafeStr callId) (e : JsError)
    (hst : e.stacktrace = none ∨ e.stacktrace = some "") (s : RPCState)
    (hp : getEntry s.pendingRPCReplies callId = some LPState.pending) :
    ∃ m, parseJson (MessageFactory.replyErr callId (ErrArg.jsError e)) = some m
      ∧ ∃ e2, (receiveReplyErr s m).2 = some (callId, LPState.resolvedErr (some e2))
        ∧ e2.name = e.name ∧ e2.message = e.message ∧ e2.stack = e.stack := by
  refine ⟨_, parseJson_replyErr_jsError callId e hsafe, ?_⟩
  have hstack : jsOrString e.stacktrace e.stack = e.stack := by
    rcases hst with h | h <;> simp [jsOrString, h]
  refine ⟨⟨e.name, e.message, e.stack, none⟩, ?_, rfl, rfl, rfl⟩
  simp [receiveReplyErr, jsField, getEntry, strD, hp, jsTruthy,
    transformErrorForSerialization, hstack, LPState.resolveErr]

/-- Witness for C6 (amended) with a concrete error and a session holding the
pending call id 1. -/
theorem C6_error_roundtrip_witness :
    ∃ m, parseJson (MessageFactory.replyErr "1"
        (ErrArg.jsError ⟨"TypeError", "bad", "line1", none⟩)) = some m
      ∧ ∃ e2, (receiveReplyErr ⟨false, [], 1, [], [("1", LPState.pending)]⟩ m).2
            = some ("1", LPState.resolvedErr (some e2))
        ∧ e2.name = "TypeError" ∧ e2.message = "bad" ∧ e2.stack = "line1" :=
  C6_error_roundtrip "1" (by unfold JsonSafeStr; decide)
    ⟨"TypeError", "bad", "line1", none⟩ (Or.inl rfl)
    ⟨false, [], 1, [], [("1", LPState.pending)]⟩ rfl

/-- C7 counterexample: the claim quantifies over every method name, but the
request template interpolates the name unescaped, so a method name
containing a quote produces a text that does not decode at all. -/
theorem C7_unescaped_method_breaks_decode :
    decodeField (MessageFactory.request "1" "mA" "a\"" []) "method" = none
    ∧ (none : Option Json) ≠ some (Json.str "a\"") := by
  constructor
  · rfl
  · intro h
    cases h

/-- C7 (amended): for every call id, proxy id and method name free of
characters needing JSON escaping, and every JSON-representable argument
list, encoding a Request and decoding the resulting text yields a message
whose `type` is 1 and whose `id`, `proxyId`, `method` and `args` are
deep-equal to the encoded inputs. -/
theorem C7_request_roundtrip (callId proxyId method : String) (args : List Json)
    (h1 : JsonSafeStr callId) (h2 : JsonSafeStr proxyId) (h3 : JsonSafeStr method) :
    decodeField (MessageFactory.request callId proxyId method args) "type"
        = some (Json.num 1)
    ∧ decodeField (MessageFactory.request callId proxyId method args) "id"
        = some (Json.str callId)
    ∧ decodeField (MessageFactory.request callId proxyId method args) "proxyId"
        = some (Json.str proxyId)
    ∧ decodeField (MessageFactory.request callId proxyId method args) "method"
        = some (Json.str method)
    ∧ decodeField (MessageFactory.request callId proxyId method args) "args"
        = some (Json.arr args) := by
  have hp := parseJson_request callId proxyId method args h1 h2 h3
  refine ⟨?_, ?_, ?_, ?_, ?_⟩ <;> simp [decodeField, hp, getEntry]

/-- Witness for C7 (amended) with the argument list `[1, "a", {"x": true}]`
from the specification's round-trip example. -/
theorem C7_request_roundtrip_witness :
    decodeField (MessageFactory.request "1" "mService" "$greet"
        [Json.num 1, Json.str "a", Json.obj [("x", Json.bool true)]]) "type"
      = some (Json.num 1)
    ∧ decodeField (MessageFactory.request "1" "mService" "$greet"
        [Json.num 1, Json.str "a", Json.obj [("x", Json.bool true)]]) "args"
      = some (Json.arr [Json.num 1, Json.str "a", Json.obj [("x", Json.bool true)]]) := by
  have h := C7_request_roundtrip "1" "mService" "$greet"
    [Json.num 1, Json.str "a", Json.obj [("x", Json.bool true)]]
    (by unfold JsonSafeStr; decide) (by unfold JsonSafeStr; decide)
    (by unfold JsonSafeStr; decide)
  exact ⟨h.1, h.2.2.2.2⟩

end RPC
